import Mathlib

/-!
Verification of the data-preparation and temporal-comparison engine of the
speedtest-logger repository (src/statistics).  The Python DataFrame pipeline
is embedded shallowly: a DataFrame is a list of column names plus a list of
rows, a row is an association list from column name to cell value, and the
pandas operations used by `prepare_data` (dashboard.py) and
`load_and_prepare_data` (analyze-speedtest.py) are translated step by step.
Timestamps are seconds since the Unix epoch (the data domain of this
repository only contains post-1970 instants, so `Nat` suffices), and the
fixed target timezone Asia/Tokyo is the constant offset +9:00 (Japan has
observed no DST in the covered era).
-/

/-- A cell of a raw record: a number, a string, or a missing value (NaN). -/
inductive CellValue
  | num (q : ℚ)
  | str (s : String)
  | na
  deriving DecidableEq, Repr

/-- A raw record row: association list column-name ↦ cell value. -/
abbrev Row := List (String × CellValue)

/-- A DataFrame: column names plus rows (each row keyed by column name). -/
structure DataFrame where
  cols : List String
  rows : List Row
  deriving DecidableEq, Repr

/-- Cell lookup in a row; a missing column reads as NaN. -/
def lookupCell (r : Row) (k : String) : CellValue :=
  match r.find? (fun p => p.1 == k) with
  | some p => p.2
  | none => .na

/-- The column rename map of `df.rename(columns={...})` in
analyze-speedtest.py lines 18-23 and dashboard.py lines 60-65:
exactly these four source names are mapped, all others pass through. -/
def renameMap : String → String
  | "timestamp (UTC)" => "timestamp_utc"
  | "ping (ms)" => "ping"
  | "download (Mbps)" => "download_mbps"
  | "upload (Mbps)" => "upload_mbps"
  | c => c

/-- Rename the keys of one row. -/
def renameRow (r : Row) : Row :=
  r.map (fun p => (renameMap p.1, p.2))

/-- In-place `df.rename(columns=..., inplace=True)` on the whole frame. -/
def renameDF (df : DataFrame) : DataFrame :=
  ⟨df.cols.map renameMap, df.rows.map renameRow⟩

/-- `numeric_cols = ['ping', 'download_mbps', 'upload_mbps']`. -/
def numericCols : List String := ["ping", "download_mbps", "upload_mbps"]

/-- `required_cols = ['timestamp_utc'] + numeric_cols`. -/
def requiredCols : List String := "timestamp_utc" :: numericCols

/-- Digit value of a character, if it is a decimal digit. -/
def digitVal (c : Char) : Option Nat :=
  if c.isDigit then some (c.toNat - 48) else none

/-- Parse a non-empty all-digit character list as a natural number. -/
def parseDigits : List Char → Option Nat
  | [] => none
  | cs => cs.foldl (fun acc c => do pure ((← acc) * 10 + (← digitVal c))) (some 0)

/-- Model of `pd.to_numeric` on a string cell: an optional sign, an integer
part, and an optional fractional part.  Anything else fails coercion. -/
def parseRatString (s : String) : Option ℚ :=
  let core : List Char → Option ℚ := fun cs =>
    match cs.span (fun c => c ≠ '.') with
    | (intPart, []) => (parseDigits intPart).map (fun n => (n : ℚ))
    | (intPart, _ :: fracPart) =>
      match parseDigits intPart, parseDigits fracPart with
      | some i, some f => some ((i : ℚ) + (f : ℚ) / ((10 : ℚ) ^ fracPart.length))
      | _, _ => none
  match s.data with
  | '-' :: rest => (core rest).map (fun q => -q)
  | cs => core cs

/-- Numeric coercion of one cell, as `pd.to_numeric(..., errors='coerce')`
performs it: numbers pass through, numeric strings are parsed, everything
else (including a missing value) becomes NaN, i.e. `none`. -/
def coerceNum : CellValue → Option ℚ
  | .num q => some q
  | .str s => parseRatString s
  | .na => none

/-- `df[numeric_cols] = df[numeric_cols].apply(pd.to_numeric, errors='coerce')`
applied to one row: the three numeric columns are replaced by their coerced
value (NaN on failure); all other cells are untouched. -/
def coerceNumericRow (r : Row) : Row :=
  r.map (fun p =>
    if p.1 ∈ numericCols then
      (p.1, match coerceNum p.2 with
            | some q => CellValue.num q
            | none => CellValue.na)
    else p)

/-- `df.dropna(subset=numeric_cols)` keeps a (coerced) row iff none of the
three numeric cells is NaN. -/
def validNumRow (r : Row) : Bool :=
  numericCols.all (fun c =>
    match lookupCell r c with
    | .num _ => true
    | _ => false)

/-- The rows surviving coercion and `dropna` (lines 35-36 / 74-75). -/
def keptRows (rows : List Row) : List Row :=
  (rows.map coerceNumericRow).filter validNumRow

/-- The rows dropped by `dropna`: the rejection count of the normalizer. -/
def rejectedRows (rows : List Row) : List Row :=
  (rows.map coerceNumericRow).filter (fun r => ! validNumRow r)

/-! ### Calendar arithmetic and ISO-8601 timestamp parsing -/

/-- Gregorian leap-year test. -/
def isLeap (y : Nat) : Bool :=
  (y % 4 == 0 && y % 100 != 0) || y % 400 == 0

/-- Number of days in a month. -/
def daysInMonth (y m : Nat) : Nat :=
  match m with
  | 2 => if isLeap y then 29 else 28
  | 4 | 6 | 9 | 11 => 30
  | _ => 31

/-- Days in the months of year `y` strictly before month `m`. -/
def daysBeforeMonth (y m : Nat) : Nat :=
  let base :=
    match m with
    | 1 => 0 | 2 => 31 | 3 => 59 | 4 => 90 | 5 => 120 | 6 => 151
    | 7 => 181 | 8 => 212 | 9 => 243 | 10 => 273 | 11 => 304 | _ => 334
  if 3 ≤ m ∧ isLeap y then base + 1 else base

/-- Days in the complete years 0, 1, ..., y-1 of the proleptic Gregorian
calendar (year 0 counted as a leap year). -/
def civilDays (y : Nat) : Nat :=
  365 * y + y / 4 - y / 100 + y / 400

/-- Days from 1970-01-01 to the civil date y-m-d (dates before 1970 are not
in this model's domain). -/
def daysSinceEpoch (y m d : Nat) : Nat :=
  civilDays y + daysBeforeMonth y m + (d - 1) - civilDays 1970

/-- Seconds from the Unix epoch to the UTC instant y-m-d h:mi:s. -/
def epochSeconds (y m d h mi s : Nat) : Nat :=
  daysSinceEpoch y m d * 86400 + h * 3600 + mi * 60 + s

/-- Parse a bare 19-character ISO-8601 timestamp `YYYY-MM-DDTHH:MM:SS` as a
UTC instant, with field-range validation.  This models the subset of
`datetime.fromisoformat` / `pd.to_datetime` behaviour exercised by the
repository's data (which only contains post-1970 timestamps in exactly
this layout). -/
def parseIso19 (s : String) : Option Nat :=
  let cs := s.data
  if cs.length = 19 then
    let g := fun i => cs.getD i ' '
    if g 4 = '-' ∧ g 7 = '-' ∧ g 10 = 'T' ∧ g 13 = ':' ∧ g 16 = ':' then
      match parseDigits [g 0, g 1, g 2, g 3], parseDigits [g 5, g 6],
            parseDigits [g 8, g 9], parseDigits [g 11, g 12],
            parseDigits [g 14, g 15], parseDigits [g 17, g 18] with
      | some y, some mo, some d, some h, some mi, some sec =>
        if 1970 ≤ y ∧ 1 ≤ mo ∧ mo ≤ 12 ∧ 1 ≤ d ∧ d ≤ daysInMonth y mo ∧
           h ≤ 23 ∧ mi ≤ 59 ∧ sec ≤ 59 then
          some (epochSeconds y mo d h mi sec)
        else none
      | _, _, _, _, _, _ => none
    else none
  else none

/-- `datetime.datetime.fromisoformat` as used by main.py on its input. -/
def fromIsoTimestamp (s : String) : Option Nat := parseIso19 s

/-- Python's `s[:-1]`: drop the final character unconditionally. -/
def pyStripLast (s : String) : String := ⟨s.data.dropLast⟩

/-- main.py line 20: `datetime.datetime.fromisoformat(line[0][:-1])` —
the trailing character of the raw timestamp field is stripped (whether or
not it is a zone designator) and the remainder parsed as a UTC wall-clock
instant. -/
def mainParseLine (s : String) : Option Nat :=
  fromIsoTimestamp (pyStripLast s)

/-- `pd.to_datetime` on a timestamp string followed by
`.dt.tz_convert('Asia/Tokyo')`, as an instant: only a string carrying the
trailing UTC designator yields a timezone-aware value (`tz_convert` raises
on naive input), and its instant is the bare string read as UTC. -/
def parseAwareUTC (s : String) : Option Nat :=
  if s.data.getLast? = some 'Z' then parseIso19 (pyStripLast s) else none

/-! ### Temporal enrichment (fixed target timezone Asia/Tokyo, UTC+9) -/

/-- The Asia/Tokyo offset in seconds (fixed +9:00, no DST in this era). -/
def jstOffset : Nat := 9 * 3600

/-- Hour of day (0-23) of a local wall-clock second count. -/
def hourOfLocal (l : Nat) : Nat := l / 3600 % 24

/-- Day index (days since 1970-01-01) of a local wall-clock second count. -/
def dayIndexOfLocal (l : Nat) : Nat := l / 86400

/-- pandas `dayofweek` (Monday = 0) of a day index; 1970-01-01 was a
Thursday, index 3. -/
def dowOfDay (d : Nat) : Nat := (d + 3) % 7

/-- pandas `day_name()` for a `dayofweek` index. -/
def dayNameOf : Nat → String
  | 0 => "Monday"
  | 1 => "Tuesday"
  | 2 => "Wednesday"
  | 3 => "Thursday"
  | 4 => "Friday"
  | 5 => "Saturday"
  | _ => "Sunday"

/-- An enriched record: canonical numeric fields plus the derived
time features and the local-time index `timestamp_jst`. -/
structure Enriched where
  ts_utc : Nat
  ts_local : Nat
  ping : ℚ
  download : ℚ
  upload : ℚ
  hour : Nat
  day_of_week : String
  day_type : String
  deriving DecidableEq, Repr

/-- Numeric value of a (coercion-validated) cell; rows reaching enrichment
have passed `dropna`, so the default is never exercised there. -/
def numOf (r : Row) (c : String) : ℚ :=
  match lookupCell r c with
  | .num q => q
  | _ => 0

/-- Build one enriched record from a cleaned row and its local wall-clock
second count `l` (the `timestamp_jst` index value): `hour` from
`.dt.hour` / `index.hour`, `day_of_week` from `.dt.day_name()`, `day_type`
from `dayofweek < 5`. -/
def mkEnriched (r : Row) (l : Nat) : Enriched :=
  { ts_utc := l - jstOffset
    ts_local := l
    ping := numOf r "ping"
    download := numOf r "download_mbps"
    upload := numOf r "upload_mbps"
    hour := hourOfLocal l
    day_of_week := dayNameOf (dowOfDay (dayIndexOfLocal l))
    day_type := if dowOfDay (dayIndexOfLocal l) < 5 then "Weekday" else "Weekend" }

/-- The timestamp of a (renamed) row as a UTC instant, via
`pd.to_datetime(df['timestamp_utc']).dt.tz_convert('Asia/Tokyo')`. -/
def rowTs (r : Row) : Option Nat :=
  match lookupCell r "timestamp_utc" with
  | .str s => parseAwareUTC s
  | _ => none

/-! ### The two preparation pipelines -/

/-- dashboard.py `prepare_data`, per row after cleaning: the `timestamp_jst`
index value is computed from the parsed timestamp, and the derived columns
`hour`, `day_of_week`, `day_type` are taken from it (lines 82-87). -/
def prepRowDash (r : Row) : Option Enriched :=
  (rowTs r).map (fun t => mkEnriched r (t + jstOffset))

/-- dashboard.py lines 54-89, `prepare_data`: empty-input guard, in-place
rename, required-column check, numeric coercion + `dropna`, empty-result
guard, then timestamp parsing/conversion and feature derivation.  A
timestamp-parse failure anywhere raises out of the function, modelled as
`none`. -/
def prepare_data (df : DataFrame) : Option (List Enriched) :=
  if df.rows.isEmpty then none
  else
    let df1 := renameDF df
    if requiredCols.all (fun c => df1.cols.contains c) then
      let rows3 := keptRows df1.rows
      if rows3.isEmpty then none
      else rows3.mapM prepRowDash
    else none

/-- dashboard.py `prepare_data` with the mutation of its argument made
explicit: every `inplace=True` step (rename, numeric-column assignment,
dropna, set_index) updates the caller's DataFrame object; the first
component is the state of that object when the function returns, the
second is the returned value. -/
def prepare_data_state (df : DataFrame) : DataFrame × Option (List Enriched) :=
  if df.rows.isEmpty then (df, none)
  else
    let df1 := renameDF df
    if requiredCols.all (fun c => df1.cols.contains c) then
      let df3 : DataFrame := ⟨df1.cols, keptRows df1.rows⟩
      if df3.rows.isEmpty then (df3, none)
      else
        match df3.rows.mapM prepRowDash with
        | some l => (df3, some l)
        | none => (df3, none)
    else (df1, none)

/-- analyze-speedtest.py lines 18-50, `load_and_prepare_data` after the CSV
read: rename, required-column check, numeric coercion + `dropna`,
empty-result guard, then `set_index` on the converted timestamps followed
by derivation of `hour`, `day_of_week`, `day_type` from the index.  The
index Series is computed first and each row is paired with its index
value. -/
def load_and_prepare_data (df : DataFrame) : Option (List Enriched) :=
  let df1 := renameDF df
  if requiredCols.all (fun c => df1.cols.contains c) then
    let rows3 := keptRows df1.rows
    if rows3.isEmpty then none
    else
      match rows3.mapM rowTs with
      | none => none
      | some ts =>
        some ((rows3.zip (ts.map (fun t => t + jstOffset))).map
          (fun p => mkEnriched p.1 p.2))
  else none

/-! ### Window partitioner and delta calculator -/

/-- dashboard.py lines 352-353: `before_df = all_data_df[all_data_df.index <
PLAN_CHANGE_TIME_JST]`, `after_df = all_data_df[all_data_df.index >=
PLAN_CHANGE_TIME_JST]` — partition of an enriched record set by a cutover
instant on the local-time index. -/
def partitionByCutover (l : List Enriched) (c : Nat) :
    List Enriched × List Enriched :=
  (l.filter (fun e => decide (e.ts_local < c)),
   l.filter (fun e => decide (c ≤ e.ts_local)))

/-- dashboard.py lines 104-106, `calculate_delta(current, historical)`:
zero baseline returns 0, otherwise the relative change in percent. -/
def calculate_delta (current historical : ℚ) : ℚ :=
  if historical = 0 then 0 else (current - historical) / historical * 100

/-! ### Concrete example batches (witness / counterexample inputs) -/

/-- The source column headers of the speedtest log. -/
def exCols : List String :=
  ["timestamp (UTC)", "ping (ms)", "download (Mbps)", "upload (Mbps)", "comment"]

/-- A raw row of the speedtest log with the given field values. -/
def mkRawRow (ts : String) (p dl ul : ℚ) : Row :=
  [("timestamp (UTC)", .str ts), ("ping (ms)", .num p),
   ("download (Mbps)", .num dl), ("upload (Mbps)", .num ul),
   ("comment", .str "")]

/-- The spec scenario's second row: its ping fails numeric coercion. -/
def exBadRow : Row :=
  [("timestamp (UTC)", .str "2025-01-01T00:05:00Z"), ("ping (ms)", .str "bad"),
   ("download (Mbps)", .num 51), ("upload (Mbps)", .num 21),
   ("comment", .str "")]

/-- One-record batch at 2025-01-01T16:00:00Z (UTC date ≠ JST date). -/
def exDF3 : DataFrame := ⟨exCols, [mkRawRow "2025-01-01T16:00:00Z" 10 50 20]⟩

/-- A valid row followed by a coercion-failing row. -/
def exMutDF : DataFrame :=
  ⟨exCols, [mkRawRow "2025-01-01T00:00:00Z" 10 50 20, exBadRow]⟩

/-- The prepared output of `exMutDF` (one surviving record). -/
def exMutOut : List Enriched := ((prepare_data_state exMutDF).2).getD []

/-- A batch whose rows are not in chronological order. -/
def exUnsortedDF : DataFrame :=
  ⟨exCols, [mkRawRow "2025-01-02T00:00:00Z" 1 2 3,
            mkRawRow "2025-01-01T00:00:00Z" 4 5 6]⟩

/-- A single-row (hence chronologically ordered) batch. -/
def exSortedDF : DataFrame := ⟨exCols, [mkRawRow "2025-01-01T00:00:00Z" 1 2 3]⟩

/-- The prepared output of `exSortedDF`. -/
def exSortedOut : List Enriched := (prepare_data exSortedDF).getD []

/-- A batch using the `(bps)` column names of the spec's alias table. -/
def exBpsDF : DataFrame :=
  ⟨["timestamp (UTC)", "ping (ms)", "download (bps)", "upload (bps)", "comment"],
   [[("timestamp (UTC)", .str "2025-08-22T00:05:00Z"), ("ping (ms)", .num 5),
     ("download (bps)", .num 42000000), ("upload (bps)", .num 17000000),
     ("comment", .str "")]]⟩

/-- A batch using the `(Mbps)` column names, download value 42. -/
def exMbpsDF : DataFrame := ⟨exCols, [mkRawRow "2025-08-22T00:05:00Z" 5 42 17]⟩

/-- The outputs of the two preparation variants on `exMutDF`. -/
def exOutAnalyze : List Enriched := (load_and_prepare_data exMutDF).getD []

/-- The dashboard variant's output on `exMutDF`. -/
def exOutDash : List Enriched := (prepare_data exMutDF).getD []

/-- A two-element enriched set for exercising the partitioner. -/
def exPartList : List Enriched := [mkEnriched [] 100, mkEnriched [] 200]

/-- Adjacent-pair ordering of an enriched list by `timestamp_utc`. -/
def sortedByTsUtc : List Enriched → Bool
  | [] => true
  | [_] => true
  | a :: b :: t => decide (a.ts_utc ≤ b.ts_utc) && sortedByTsUtc (b :: t)

/-- The scenario row of `exDF3` after rename and numeric coercion. -/
def exRow3p : Row := coerceNumericRow (renameRow (mkRawRow "2025-01-01T16:00:00Z" 10 50 20))

/-- The enriched record produced from `exRow3p`. -/
def exEnr3 : Enriched := (prepRowDash exRow3p).getD (mkEnriched [] 0)

/-! ### Helper lemmas -/

/-- A filter and the filter of the negated predicate recombine, up to
permutation, into the original list. -/
theorem filter_not_filter_perm {α : Type} (p : α → Bool) :
    ∀ l : List α, (l.filter p ++ l.filter (fun a => ! p a)).Perm l
  | [] => by simp
  | a :: t => by
    by_cases h : p a = true
    · simpa [List.filter_cons, h] using (filter_not_filter_perm p t).cons a
    · simp only [List.filter_cons, h, Bool.not_eq_true] at *
      simp only [h, if_false, Bool.not_false, if_true]
      exact List.perm_middle.trans ((filter_not_filter_perm p t).cons a)

/-- C1: For every enriched record set and every cutover instant, partitioning
by cutover (as done with the plan-change time in dashboard.py) yields two
disjoint sets whose union, up to permutation, is the input; every record in
`before` has `timestamp_local` strictly below the cutover and every record
in `after` has `timestamp_local` at or above it (boundary inclusive to
`after`). -/
theorem partition_cutover_correct (l : List Enriched) (c : Nat) :
    (∀ e, e ∈ (partitionByCutover l c).1 → e.ts_local < c) ∧
    (∀ e, e ∈ (partitionByCutover l c).2 → c ≤ e.ts_local) ∧
    (∀ e, ¬(e ∈ (partitionByCutover l c).1 ∧ e ∈ (partitionByCutover l c).2)) ∧
    (∀ e, e ∈ l ↔ (e ∈ (partitionByCutover l c).1 ∨ e ∈ (partitionByCutover l c).2)) ∧
    ((partitionByCutover l c).1 ++ (partitionByCutover l c).2).Perm l := by
  have hpred : (fun e : Enriched => decide (c ≤ e.ts_local)) =
      (fun e : Enriched => ! decide (e.ts_local < c)) := by
    funext e
    rw [← decide_not]
    exact decide_eq_decide.mpr Nat.not_lt.symm
  refine ⟨?_, ?_, ?_, ?_, ?_⟩
  · intro e he
    simpa using (List.mem_filter.mp he).2
  · intro e he
    simpa using (List.mem_filter.mp he).2
  · intro e ⟨h1, h2⟩
    simp only [partitionByCutover, List.mem_filter, decide_eq_true_eq] at h1 h2
    exact absurd h2.2 (Nat.not_le.mpr h1.2)
  · intro e
    constructor
    · intro he
      rcases Nat.lt_or_ge e.ts_local c with h | h
      · exact Or.inl (List.mem_filter.mpr ⟨he, by simpa using h⟩)
      · exact Or.inr (List.mem_filter.mpr ⟨he, by simpa using h⟩)
    · rintro (he | he) <;> exact (List.mem_filter.mp he).1
  · simpa [partitionByCutover, hpred] using
      filter_not_filter_perm (fun e : Enriched => decide (e.ts_local < c)) l

/-- C1 witness: the partitioner at cutover 150 on a concrete two-record set
places the 100-second record strictly before and the 200-second record at
or after the cutover. -/
theorem partition_cutover_correct_witness :
    (mkEnriched [] 100).ts_local < 150 ∧ 150 ≤ (mkEnriched [] 200).ts_local := by
  have h := partition_cutover_correct exPartList 150
  exact ⟨h.1 _ (by decide), h.2.1 _ (by decide)⟩

/-- C2: `calculate_delta` returns `(current - baseline) / baseline * 100`
for a nonzero baseline and exactly 0 for a zero baseline (no division
fault); in particular the delta of 150 against 100 is 50 and of 50 against
100 is -50. -/
theorem calculate_delta_spec (baseline current : ℚ) :
    (baseline ≠ 0 →
      calculate_delta current baseline = (current - baseline) / baseline * 100) ∧
    calculate_delta current 0 = 0 ∧
    calculate_delta 150 100 = 50 ∧
    calculate_delta 50 100 = -50 := by
  refine ⟨fun h => ?_, ?_, ?_, ?_⟩
  · simp [calculate_delta, h]
  · simp [calculate_delta]
  · norm_num [calculate_delta]
  · norm_num [calculate_delta]

/-- C2 witness: the delta of 3 against baseline 2 is 50 percent, and a zero
baseline yields 0. -/
theorem calculate_delta_spec_witness :
    calculate_delta 3 2 = 50 ∧ calculate_delta 3 0 = 0 := by
  have h := calculate_delta_spec 2 3
  refine ⟨?_, h.2.1⟩
  rw [h.1 (by norm_num)]
  norm_num

/-- C4: for every raw record batch, the records surviving normalization plus
the rejected rows account exactly for the input length: no row is
duplicated, dropped untracked, or invented. -/
theorem kept_plus_rejected_eq_len (rows : List Row) :
    (keptRows rows).length + (rejectedRows rows).length = rows.length := by
  have h := (filter_not_filter_perm validNumRow (rows.map coerceNumericRow)).length_eq
  simpa [keptRows, rejectedRows, List.length_append] using h

/-- Looking up a numeric column in a coerced row yields the coerced value of
the original cell. -/
theorem lookup_coerceNumericRow (r : Row) (c : String) (hc : c ∈ numericCols) :
    lookupCell (coerceNumericRow r) c =
      (match coerceNum (lookupCell r c) with
       | some q => CellValue.num q
       | none => CellValue.na) := by
  induction r with
  | nil => rfl
  | cons p t ih =>
    rcases p with ⟨k, v⟩
    by_cases hk : k = c
    · subst hk
      have hm : k ∈ numericCols := hc
      simp [coerceNumericRow, lookupCell, List.find?_cons, hm]
    · have hbeq : (k == c) = false := by simpa using hk
      by_cases hm : k ∈ numericCols <;>
        simpa [coerceNumericRow, lookupCell, List.find?_cons, hm, hbeq] using ih

/-- A coerced row survives `dropna` iff all three numeric cells of the
original row coerce successfully. -/
theorem validNumRow_coerce_iff (r : Row) :
    validNumRow (coerceNumericRow r) = true ↔
      ∀ c ∈ numericCols, (coerceNum (lookupCell r c)).isSome := by
  simp only [validNumRow, List.all_eq_true]
  constructor
  · intro h c hc
    have hv := h c hc
    rw [lookup_coerceNumericRow r c hc] at hv
    cases hcn : coerceNum (lookupCell r c) <;> simp [hcn] at hv ⊢
  · intro h c hc
    rw [lookup_coerceNumericRow r c hc]
    have hv := h c hc
    cases hcn : coerceNum (lookupCell r c) <;> simp [hcn] at hv ⊢

/-- C5: a raw record is excluded by the normalizer iff at least one of the
three numeric fields is absent or fails numeric coercion (equivalently, it
is kept iff all three coerce); a kept record's numeric values are exactly
the coerced originals — never repaired or defaulted. -/
theorem rejection_iff_coercion_failure (rows : List Row) (r : Row) :
    (r ∈ rows →
      (coerceNumericRow r ∈ keptRows rows ↔
        ∀ c ∈ numericCols, (coerceNum (lookupCell r c)).isSome)) ∧
    (∀ c ∈ numericCols, ∀ q, coerceNum (lookupCell r c) = some q →
      lookupCell (coerceNumericRow r) c = CellValue.num q) := by
  constructor
  · intro hr
    constructor
    · intro hk
      exact (validNumRow_coerce_iff r).mp (List.mem_filter.mp hk).2
    · intro hall
      exact List.mem_filter.mpr
        ⟨List.mem_map_of_mem _ hr, (validNumRow_coerce_iff r).mpr hall⟩
  · intro c hc q hq
    rw [lookup_coerceNumericRow r c hc, hq]

/-- C5 witness: in the two-row scenario batch, the row whose ping reads
"bad" fails coercion and is excluded, while the valid row is kept. -/
theorem rejection_iff_coercion_failure_witness :
    ((coerceNumericRow (renameRow exBadRow) ∈ keptRows (renameDF exMutDF).rows ↔
        ∀ c ∈ numericCols, (coerceNum (lookupCell (renameRow exBadRow) c)).isSome) ∧
      ¬ ∀ c ∈ numericCols, (coerceNum (lookupCell (renameRow exBadRow) c)).isSome) ∧
    coerceNumericRow (renameRow (mkRawRow "2025-01-01T00:00:00Z" 10 50 20)) ∈
      keptRows (renameDF exMutDF).rows := by
  refine ⟨⟨(rejection_iff_coercion_failure (renameDF exMutDF).rows
      (renameRow exBadRow)).1 (by decide), by decide⟩, by decide⟩

/-- C3: the derived fields of an enriched record are computed from the
timestamp converted to the target timezone — the local wall-clock count
`timestamp_utc + jstOffset` — so `hour`, `day_of_week` and `day_type`
follow the local date, not the UTC date. -/
theorem enrich_uses_local_date (r : Row) (e : Enriched)
    (h : prepRowDash r = some e) :
    e.ts_local = e.ts_utc + jstOffset ∧
    e.hour = hourOfLocal (e.ts_utc + jstOffset) ∧
    e.day_of_week = dayNameOf (dowOfDay (dayIndexOfLocal (e.ts_utc + jstOffset))) ∧
    e.day_type = (if dowOfDay (dayIndexOfLocal (e.ts_utc + jstOffset)) < 5
                  then "Weekday" else "Weekend") := by
  unfold prepRowDash at h
  cases ht : rowTs r with
  | none => rw [ht] at h; exact Option.noConfusion h
  | some t =>
    rw [ht] at h
    simp only [Option.map_some'] at h
    have he : e = mkEnriched r (t + jstOffset) := (Option.some.inj h).symm
    subst he
    refine ⟨?_, ?_, ?_, ?_⟩ <;> simp [mkEnriched, Nat.add_sub_cancel]

/-- C3 witness: the record at 2025-01-01T16:00:00Z is enriched under +9:00
as local 2025-01-02T01:00:00 (hour 1); its weekday classification uses the
local date (a Thursday, hence Weekday) although the UTC date 2025-01-01 is
a Wednesday. -/
theorem enrich_uses_local_date_witness :
    exEnr3.ts_utc = 1735747200 ∧ exEnr3.ts_local = 1735779600 ∧
    exEnr3.hour = 1 ∧ exEnr3.day_of_week = "Thursday" ∧
    exEnr3.day_type = "Weekday" ∧
    dayNameOf (dowOfDay (exEnr3.ts_utc / 86400)) = "Wednesday" ∧
    exEnr3.day_of_week =
      dayNameOf (dowOfDay (dayIndexOfLocal (exEnr3.ts_utc + jstOffset))) := by
  have h := enrich_uses_local_date exRow3p exEnr3 (by decide)
  exact ⟨by decide, by decide, by decide, by decide, by decide, by decide,
    h.2.2.1⟩

/-- C6 counterexample: `2025-08-22T00:05:00` is valid ISO-8601 without the
trailing UTC designator, yet main.py's unconditional strip of the final
character corrupts it and its parse fails, while the designator-carrying
form parses; the two forms therefore do not both succeed, refuting the
claim at this input. -/
theorem strip_corrupts_bare_timestamp :
    parseIso19 "2025-08-22T00:05:00" = some 1755821100 ∧
    mainParseLine "2025-08-22T00:05:00Z" = some 1755821100 ∧
    mainParseLine "2025-08-22T00:05:00" = none := by decide

/-- C6 amended: main.py strips the trailing character of the timestamp
field unconditionally, so exactly the strings carrying the trailing UTC
designator parse (to the instant of the bare string read as UTC), and a
valid bare ISO-8601 string without the designator is corrupted and
rejected. -/
theorem strip_parse_amended (s : String) (t : Nat)
    (h : parseIso19 s = some t) :
    mainParseLine (s.push 'Z') = some t ∧ mainParseLine s = none := by
  have hlen : s.data.length = 19 := by
    by_contra hne
    simp only [parseIso19] at h
    rw [if_neg hne] at h
    exact Option.noConfusion h
  constructor
  · have hstrip : pyStripLast (s.push 'Z') = s := by
      show (⟨((s.data ++ ['Z']) : List Char).dropLast⟩ : String) = s
      rw [List.dropLast_concat]
    rw [mainParseLine, hstrip]
    exact h
  · have h18 : (pyStripLast s).data.length = 18 := by
      show (s.data.dropLast).length = 18
      rw [List.length_dropLast, hlen]
    rw [mainParseLine, fromIsoTimestamp]
    simp only [parseIso19]
    rw [if_neg (by rw [h18]; decide)]

/-- C6 witness: the amended behaviour at the concrete timestamp
2025-08-22T00:05:00. -/
theorem strip_parse_amended_witness :
    mainParseLine ("2025-08-22T00:05:00".push 'Z') = some 1755821100 ∧
    mainParseLine "2025-08-22T00:05:00" = none :=
  strip_parse_amended "2025-08-22T00:05:00" 1755821100 (by decide)

/-- C7 counterexample: a batch using the `(bps)` column names is rejected
outright by both preparation variants (required columns missing after
rename), so the normalizer does not accept `download (bps)` /
`upload (bps)` as aliases, converted or otherwise. -/
theorem bps_alias_rejected :
    prepare_data exBpsDF = none ∧ load_and_prepare_data exBpsDF = none := by
  decide

/-- C7 amended: the rename table recognises only the exact headers
`timestamp (UTC)`, `ping (ms)`, `download (Mbps)` and `upload (Mbps)`;
`(bps)` headers pass through unrenamed, such a batch fails the
required-column check, and a `(Mbps)` value is taken over unchanged — no
division by 1,000,000 happens anywhere. -/
theorem alias_table_mbps_only :
    renameMap "download (bps)" = "download (bps)" ∧
    renameMap "upload (bps)" = "upload (bps)" ∧
    renameMap "download (Mbps)" = "download_mbps" ∧
    renameMap "upload (Mbps)" = "upload_mbps" ∧
    prepare_data exBpsDF = none ∧
    (prepare_data exMbpsDF).map (fun l => l.map Enriched.download) =
      some [42] ∧
    (prepare_data exMbpsDF).map (fun l => l.map Enriched.upload) =
      some [17] := by
  decide

/-- When the timestamp column of every row parses, mapping the per-row
enrichment over the rows equals pairing each row with its local index value
(the two orders of `set_index` and feature derivation agree). -/
theorem mapM_rowTs_prepRow :
    ∀ (rows : List Row) (ts : List Nat),
      rows.mapM rowTs = some ts →
      rows.mapM prepRowDash =
        some ((rows.zip (ts.map (fun t => t + jstOffset))).map
          (fun p => mkEnriched p.1 p.2)) := by
  intro rows
  induction rows with
  | nil =>
    intro ts h
    simp only [List.mapM_nil, pure, Option.some.injEq] at h
    subst h
    rfl
  | cons a rest ih =>
    intro ts h
    rw [List.mapM_cons] at h
    cases hta : rowTs a with
    | none => rw [hta] at h; simp at h
    | some t =>
      rw [hta] at h
      cases hrest : rest.mapM rowTs with
      | none => rw [hrest] at h; simp at h
      | some ts' =>
        rw [hrest] at h
        simp only [Option.bind_some, Option.pure_def, Option.bind_eq_bind,
          Option.some_bind, Option.some.injEq] at h
        subst h
        rw [List.mapM_cons, ih ts' hrest]
        simp [prepRowDash, hta, List.zip_cons_cons]

/-- Each enriched record produced by the row-wise preparation carries the
parsed timestamp of its source row. -/
theorem mapM_prepRowDash_ts :
    ∀ (rows : List Row) (l : List Enriched),
      rows.mapM prepRowDash = some l →
      List.Forall₂ (fun (r : Row) (e : Enriched) => rowTs r = some e.ts_utc)
        rows l := by
  intro rows
  induction rows with
  | nil =>
    intro l h
    simp only [List.mapM_nil, pure, Option.some.injEq] at h
    subst h
    exact List.Forall₂.nil
  | cons a rest ih =>
    intro l h
    rw [List.mapM_cons] at h
    cases hta : rowTs a with
    | none => simp [prepRowDash, hta] at h
    | some t =>
      cases hrest : rest.mapM prepRowDash with
      | none => rw [hrest] at h; simp [prepRowDash, hta] at h
      | some l' =>
        rw [hrest] at h
        simp only [prepRowDash, hta, Option.map_some', Option.pure_def,
          Option.bind_eq_bind, Option.some_bind, Option.some.injEq] at h
        subst h
        refine List.Forall₂.cons ?_ (ih l' hrest)
        rw [hta]
        simp [mkEnriched, Nat.add_sub_cancel]

/-- A right member of a `Forall₂` pair has a related left member. -/
theorem forall2_mem_right {α β : Type} {R : α → β → Prop} :
    ∀ {l1 : List α} {l2 : List β}, List.Forall₂ R l1 l2 →
      ∀ b ∈ l2, ∃ a ∈ l1, R a b := by
  intro l1 l2 h
  induction h with
  | nil => intro b hb; cases hb
  | cons hab _ ih =>
    intro b hb
    rcases List.mem_cons.mp hb with rfl | hb
    · exact ⟨_, List.mem_cons_self _ _, hab⟩
    · obtain ⟨a, ha, hR⟩ := ih b hb
      exact ⟨a, List.mem_cons_of_mem _ ha, hR⟩

/-- Transfer a pairwise relation across a `Forall₂` correspondence. -/
theorem pairwise_transfer {α β : Type} {R : α → β → Prop}
    {P : α → α → Prop} {Q : β → β → Prop}
    (hPQ : ∀ a1 a2 b1 b2, R a1 b1 → R a2 b2 → P a1 a2 → Q b1 b2) :
    ∀ {l1 : List α} {l2 : List β}, List.Forall₂ R l1 l2 →
      l1.Pairwise P → l2.Pairwise Q := by
  intro l1 l2 hf
  induction hf with
  | nil => intro _; exact List.Pairwise.nil
  | cons hab hrest ih =>
    intro hp
    rcases List.pairwise_cons.mp hp with ⟨hhead, htail⟩
    refine List.Pairwise.cons ?_ (ih htail)
    intro b2 hb2
    obtain ⟨a2, ha2, hR2⟩ := forall2_mem_right hrest b2 hb2
    exact hPQ _ _ _ _ hab hR2 (hhead a2 ha2)

/-- C8 counterexample: the pipeline performs no sort — on a two-row batch
given in reverse chronological order the prepared output keeps that order,
so its adjacent records violate `timestamp_utc` ascending. -/
theorem prepare_output_not_sorted :
    (prepare_data exUnsortedDF).map (fun l => l.map Enriched.ts_utc) =
      some [1735776000, 1735689600] ∧
    (prepare_data exUnsortedDF).map sortedByTsUtc = some false := by
  decide

/-- C8 amended: the preparation pipeline preserves the raw input's row
order (it never sorts), so its output is ordered by `timestamp_utc`
ascending exactly when the surviving input rows already are: a
chronologically ordered batch yields a chronologically ordered RecordSet. -/
theorem prepare_preserves_order (df : DataFrame) (l : List Enriched)
    (h : prepare_data df = some l)
    (hs : (keptRows (renameDF df).rows).Pairwise
      (fun r1 r2 => ∀ t1 t2, rowTs r1 = some t1 → rowTs r2 = some t2 →
        t1 ≤ t2)) :
    l.Pairwise (fun a b => a.ts_utc ≤ b.ts_utc) := by
  rw [prepare_data] at h
  split at h
  · exact Option.noConfusion h
  · dsimp only at h
    split at h
    · split at h
      · exact Option.noConfusion h
      · have hf := mapM_prepRowDash_ts _ _ h
        exact pairwise_transfer
          (fun r1 r2 e1 e2 hR1 hR2 hP => hP _ _ hR1 hR2) hf hs
    · exact Option.noConfusion h

/-- C8 witness: the one-row batch is trivially ordered and its prepared
output is ordered by `timestamp_utc`. -/
theorem prepare_preserves_order_witness :
    exSortedOut.Pairwise (fun a b : Enriched => a.ts_utc ≤ b.ts_utc) := by
  refine prepare_preserves_order exSortedDF exSortedOut (by decide) ?_
  have hk : keptRows (renameDF exSortedDF).rows =
      [coerceNumericRow (renameRow (mkRawRow "2025-01-01T00:00:00Z" 1 2 3))] := by
    decide
  rw [hk]
  exact List.pairwise_singleton _ _

/-- C9: `prepare_data` mutates its input frame in place — its explicit-state
rendering returns the same value as the pure rendering, and on success the
caller's object has been left with the renamed columns and only the rows
surviving coercion, so the raw pre-normalization view (e.g. `exMutDF`) is
no longer what the object holds. -/
theorem prepare_mutates_in_place (df : DataFrame) (l : List Enriched)
    (hsucc : (prepare_data_state df).2 = some l) :
    (prepare_data_state df).2 = prepare_data df ∧
    (prepare_data_state df).1 =
      ⟨(renameDF df).cols, keptRows (renameDF df).rows⟩ ∧
    (prepare_data_state exMutDF).1 ≠ exMutDF := by
  refine ⟨?_, ?_, by decide⟩
  · rw [prepare_data_state, prepare_data]
    split
    · rfl
    · dsimp only
      split
      · split
        · rfl
        · cases hm : (keptRows (renameDF df).rows).mapM prepRowDash with
          | some l' => simp [hm]
          | none => simp [hm]
      · rfl
  · rw [prepare_data_state] at hsucc
    split at hsucc
    next h0 => simp at hsucc
    next h0 =>
      dsimp only at hsucc
      split at hsucc
      next h1 =>
        split at hsucc
        next h2 => simp at hsucc
        next h2 =>
          rw [prepare_data_state, if_neg h0]
          dsimp only
          rw [if_pos h1, if_neg h2]
          cases hm : (keptRows (renameDF df).rows).mapM prepRowDash with
          | some l' => rfl
          | none => rfl
      next h1 => simp at hsucc

/-- C9 witness: after a successful run on the concrete two-row batch, the
caller's object no longer equals the raw input. -/
theorem prepare_mutates_in_place_witness :
    (prepare_data_state exMutDF).1 ≠ exMutDF :=
  (prepare_mutates_in_place exMutDF exMutOut (by decide)).2.2

/-- C10: the two preparation variants are equivalent — whenever
`load_and_prepare_data` (analyze-speedtest.py) and `prepare_data`
(dashboard.py) both succeed on the same raw batch, they produce the same
enriched record list, with identical local index, hour, day-of-week and
day-type values. -/
theorem prepare_variants_equivalent (df : DataFrame) (l1 l2 : List Enriched)
    (h1 : load_and_prepare_data df = some l1)
    (h2 : prepare_data df = some l2) : l1 = l2 := by
  rw [prepare_data] at h2
  split at h2
  next h0 => exact Option.noConfusion h2
  next h0 =>
    dsimp only at h2
    split at h2
    next hreq =>
      split at h2
      next hemp => exact Option.noConfusion h2
      next hemp =>
        rw [load_and_prepare_data] at h1
        dsimp only at h1
        rw [if_pos hreq, if_neg hemp] at h1
        cases hts : (keptRows (renameDF df).rows).mapM rowTs with
        | none => rw [hts] at h1; exact Option.noConfusion h1
        | some ts =>
          rw [hts] at h1
          have hzip := mapM_rowTs_prepRow _ _ hts
          rw [hzip] at h2
          cases Option.some.inj h1
          cases Option.some.inj h2
          rfl
    next hreq => exact Option.noConfusion h2

/-- C10 witness: both variants agree on the concrete two-row batch (one
surviving record each). -/
theorem prepare_variants_equivalent_witness : exOutAnalyze = exOutDash :=
  prepare_variants_equivalent exMutDF exOutAnalyze exOutDash
    (by decide) (by decide)
